import Mathlib

/-!
Shallow embedding of the shopkeeper inventory/sales manager (`src/apps.py`).

The Python program keeps an in-memory catalog `self.inventory : dict[str, Item]`
and a sales log `self.sales : list[dict]`, and writes both to two JSON files
after every mutation.  We model:

* the catalog as an association list `List (String × Item)`; Python dicts have
  unique keys and preserve insertion order, `d[k] = v` replaces the binding in
  place when `k` is present and appends a new binding otherwise, and `del d[k]`
  removes the binding — `setKey` / `eraseKey` below mirror that behaviour;
* numeric values as `Int` (the console layer parses `int`/`float`; all the
  arithmetic the manager performs is `+`, `-`, `*` and comparisons, which we
  take over the integers);
* each durable file by the content found at its path: `Store.absent` (no file),
  `Store.invalid` (text that is not valid JSON), or `Store.val j` (text that
  parses to the JSON value `j`);
* an uncaught Python exception during loading as the result `none`.
-/

/-- JSON values, the shapes `json.load` / `json.dump` exchange. -/
inductive Json where
  | null : Json
  | bool (b : Bool) : Json
  | num (n : Int) : Json
  | str (s : String) : Json
  | arr (elems : List Json) : Json
  | obj (fields : List (String × Json)) : Json

/-- Content of a durable storage location. -/
inductive Store where
  | absent : Store
  | invalid : Store
  | val (j : Json) : Store

/-- `class Item`: one catalog entry with `name`, `price`, `quantity`. -/
structure Item where
  name : String
  price : Int
  quantity : Int
deriving Repr, DecidableEq

/-- One entry of `self.sales`: the dict
`{'name': name, 'quantity': quantity, 'total_price': total_price}`
appended by `sell_item`. -/
structure SaleRecord where
  name : String
  quantity : Int
  total_price : Int
deriving Repr, DecidableEq

/-- Dict lookup `d[k]` / `k in d` on an association list: first binding wins
(Python dicts have unique keys, so the first binding is the only one). -/
def lookupD (l : List (String × Item)) (k : String) : Option Item :=
  match l with
  | [] => none
  | (k2, v) :: rest => if k2 = k then some v else lookupD rest k

/-- Dict assignment `d[k] = v`: replace the binding in place when present,
append a new binding otherwise (Python 3.7+ insertion order). -/
def setKey (l : List (String × Item)) (k : String) (v : Item) :
    List (String × Item) :=
  match l with
  | [] => [(k, v)]
  | (k2, v2) :: rest => if k2 = k then (k, v) :: rest else (k2, v2) :: setKey rest k v

/-- Dict deletion `del d[k]`: drop the binding for `k`. -/
def eraseKey (l : List (String × Item)) (k : String) : List (String × Item) :=
  match l with
  | [] => []
  | (k2, v2) :: rest => if k2 = k then rest else (k2, v2) :: eraseKey rest k

/-- `Item.to_dict`. -/
def serializeItem (it : Item) : Json :=
  .obj [("name", .str it.name), ("price", .num it.price), ("quantity", .num it.quantity)]

/-- The JSON object `save_inventory` dumps:
`{name: item.to_dict() for name, item in self.inventory.items()}`. -/
def serializeInv (inv : List (String × Item)) : Json :=
  .obj (inv.map (fun p => (p.1, serializeItem p.2)))

/-- The JSON array `save_sales` dumps: `self.sales` as a list of dicts. -/
def serializeSales (sales : List SaleRecord) : Json :=
  .arr (sales.map (fun s =>
    .obj [("name", .str s.name), ("quantity", .num s.quantity),
          ("total_price", .num s.total_price)]))

/-- Key lookup inside a JSON object (`data['name']` etc.). -/
def jlookup (fields : List (String × Json)) (k : String) : Option Json :=
  match fields with
  | [] => none
  | (k2, v) :: rest => if k2 = k then some v else jlookup rest k

/-- `Item.from_dict(data)`: reads `data['name']`, `data['price']`,
`data['quantity']`.  `none` models failure (a non-object, a missing key, or a
value outside the numeric/string shapes every state this program writes has). -/
def decodeItem (j : Json) : Option Item :=
  match j with
  | .obj fields =>
    match jlookup fields "name", jlookup fields "price", jlookup fields "quantity" with
    | some (.str n), some (.num p), some (.num q) => some ⟨n, p, q⟩
    | _, _, _ => none
  | _ => none

/-- The dict comprehension in `load_inventory`:
`{name: Item.from_dict(item) for name, item in data.items()}`, failing as soon
as one entry fails. -/
def decodeInvList (fields : List (String × Json)) : Option (List (String × Item)) :=
  match fields with
  | [] => some []
  | (n, ij) :: rest =>
    match decodeItem ij, decodeInvList rest with
    | some it, some tail => some ((n, it) :: tail)
    | _, _ => none

/-- One record of the sales file, as `show_sales` / `generate_report` read it. -/
def decodeSale (j : Json) : Option SaleRecord :=
  match j with
  | .obj fields =>
    match jlookup fields "name", jlookup fields "quantity", jlookup fields "total_price" with
    | some (.str n), some (.num q), some (.num t) => some ⟨n, q, t⟩
    | _, _, _ => none
  | _ => none

/-- Decode a JSON array of sale records. -/
def decodeSalesList (elems : List Json) : Option (List SaleRecord) :=
  match elems with
  | [] => some []
  | e :: rest =>
    match decodeSale e, decodeSalesList rest with
    | some s, some tail => some (s :: tail)
    | _, _ => none

/-- Decode the sales store value into a typed sales log. -/
def decodeSales (j : Json) : Option (List SaleRecord) :=
  match j with
  | .arr elems => decodeSalesList elems
  | _ => none

/-- `Shopkeeper.load_inventory`, as a function of the inventory file's content.
Returns the loaded catalog and the file's content afterwards; `none` models an
uncaught exception.  Branches, from the source: the file does not exist — write
`{}` and keep the empty catalog from `__init__`; `json.JSONDecodeError` — keep
the empty catalog, file untouched; otherwise run the dict comprehension over
`json.load`'s result, which raises (uncaught) when that result is not a dict or
an entry lacks a key. -/
def load_inventory (c : Store) : Option (List (String × Item) × Store) :=
  match c with
  | .absent => some ([], .val (.obj []))
  | .invalid => some ([], .invalid)
  | .val j =>
    match j with
    | .obj fields => (decodeInvList fields).map (fun inv => (inv, .val j))
    | _ => none

/-- `Shopkeeper.load_sales`, as a function of the sales file's content.  The
source assigns `self.sales = json.load(f)` with no shape check, so for any
parseable content it succeeds and keeps the raw value; absence writes `[]` and
keeps the empty list from `__init__`; `json.JSONDecodeError` yields `[]`. -/
def load_sales_raw (c : Store) : Json × Store :=
  match c with
  | .absent => (.arr [], .val (.arr []))
  | .invalid => (.arr [], .invalid)
  | .val j => (j, .val j)

/-- The state of a `Shopkeeper` instance: the in-memory catalog and sales log,
plus the current content of the two files it writes. -/
structure Shopkeeper where
  inventory : List (String × Item)
  sales : List SaleRecord
  inventory_store : Store
  sales_store : Store

/-- `save_inventory`: overwrite the inventory file with the serialized catalog. -/
def Shopkeeper.save_inventory (s : Shopkeeper) : Shopkeeper :=
  { s with inventory_store := .val (serializeInv s.inventory) }

/-- `save_sales`: overwrite the sales file with the serialized sales log. -/
def Shopkeeper.save_sales (s : Shopkeeper) : Shopkeeper :=
  { s with sales_store := .val (serializeSales s.sales) }

/-- `add_item(name, price, quantity)`: if the name exists, increment its
quantity in place; else insert a new `Item`; then `save_inventory`. -/
def Shopkeeper.add_item (s : Shopkeeper) (name : String) (price quantity : Int) :
    Shopkeeper :=
  let inv :=
    match lookupD s.inventory name with
    | some it => setKey s.inventory name { it with quantity := it.quantity + quantity }
    | none => s.inventory ++ [(name, Item.mk name price quantity)]
  Shopkeeper.save_inventory { s with inventory := inv }

/-- `remove_item(name)`: delete and save when present; otherwise print
"not found" and leave everything alone.  The returned flag records which branch
ran (`True` = removed, `False` = the not-found message). -/
def Shopkeeper.remove_item (s : Shopkeeper) (name : String) : Shopkeeper × Bool :=
  match lookupD s.inventory name with
  | some _ =>
    (Shopkeeper.save_inventory { s with inventory := eraseKey s.inventory name }, true)
  | none => (s, false)

/-- `update_item(name, price=None, quantity=None)`: when present, overwrite
exactly the supplied fields and save; otherwise print "not found" and leave
everything alone.  The returned flag records which branch ran. -/
def Shopkeeper.update_item (s : Shopkeeper) (name : String)
    (price quantity : Option Int) : Shopkeeper × Bool :=
  match lookupD s.inventory name with
  | some it =>
    let it1 := match price with
      | some p => { it with price := p }
      | none => it
    let it2 := match quantity with
      | some q => { it1 with quantity := q }
      | none => it1
    (Shopkeeper.save_inventory { s with inventory := setKey s.inventory name it2 }, true)
  | none => (s, false)

/-- `sell_item(name, quantity)`: when the name exists and its stock is at least
`quantity`, decrement the stock, append the sale record with
`total_price = price * quantity`, save both files and return the total;
otherwise print the unavailable message and return `0` with nothing changed. -/
def Shopkeeper.sell_item (s : Shopkeeper) (name : String) (quantity : Int) :
    Shopkeeper × Int :=
  match lookupD s.inventory name with
  | some it =>
    if quantity ≤ it.quantity then
      let total := it.price * quantity
      let s1 := { s with
        inventory := setKey s.inventory name { it with quantity := it.quantity - quantity },
        sales := s.sales ++ [⟨name, quantity, total⟩] }
      ((Shopkeeper.save_sales (Shopkeeper.save_inventory s1)), total)
    else (s, 0)
  | none => (s, 0)

/-- The rows `show_sales` tabulates:
`[[sale['name'], sale['quantity'], sale['total_price']] for sale in self.sales]`. -/
def Shopkeeper.show_sales (s : Shopkeeper) : List (String × Int × Int) :=
  s.sales.map (fun r => (r.name, r.quantity, r.total_price))

/-- The total `generate_report` prints:
`sum(sale['total_price'] for sale in self.sales)`. -/
def Shopkeeper.generate_report (s : Shopkeeper) : Int :=
  (s.sales.map (fun r => r.total_price)).sum

/-- The guard of `sell_item`:
`name in self.inventory and self.inventory[name].quantity >= quantity`. -/
def Shopkeeper.canSell (s : Shopkeeper) (name : String) (quantity : Int) : Bool :=
  match lookupD s.inventory name with
  | some it => quantity ≤ it.quantity
  | none => false

/-- One call of a mutating `Shopkeeper` operation. -/
inductive Step : Shopkeeper → Shopkeeper → Prop where
  | add (s : Shopkeeper) (name : String) (price quantity : Int) :
      Step s (s.add_item name price quantity)
  | remove (s : Shopkeeper) (name : String) :
      Step s (s.remove_item name).1
  | update (s : Shopkeeper) (name : String) (price quantity : Option Int) :
      Step s (s.update_item name price quantity).1
  | sell (s : Shopkeeper) (name : String) (quantity : Int) :
      Step s (s.sell_item name quantity).1

/-- States reachable from construction (`__init__` loads both files; we only
admit initial sales files whose JSON decodes to a list of sale records, the
shape every run of the program writes) by any sequence of operations. -/
inductive Reachable : Shopkeeper → Prop where
  | init (invC salesC : Store) (inv : List (String × Item)) (invC2 : Store)
      (jsales : Json) (salesC2 : Store) (sales : List SaleRecord) :
      load_inventory invC = some (inv, invC2) →
      load_sales_raw salesC = (jsales, salesC2) →
      decodeSales jsales = some sales →
      Reachable ⟨inv, sales, invC2, salesC2⟩
  | step (s s2 : Shopkeeper) : Reachable s → Step s s2 → Reachable s2

/-- Every quantity in the catalog is non-negative. -/
def invNonneg (inv : List (String × Item)) : Prop :=
  ∀ p ∈ inv, 0 ≤ p.2.quantity

/-- The state of a freshly constructed shopkeeper whose two files were absent. -/
def emptyShop : Shopkeeper :=
  ⟨[], [], .val (.obj []), .val (.arr [])⟩

/-- A sample state: one item `w` at price 5 with 10 in stock, no sales yet. -/
def sampleShop : Shopkeeper :=
  ⟨[("w", ⟨"w", 5, 10⟩)], [], .val (serializeInv [("w", ⟨"w", 5, 10⟩)]), .val (.arr [])⟩

/-- A sample state: one item `x` given away for free (price 0), 5 in stock. -/
def freeShop : Shopkeeper :=
  ⟨[("x", ⟨"x", 0, 5⟩)], [], .val (serializeInv [("x", ⟨"x", 0, 5⟩)]), .val (.arr [])⟩

/-- A sequence of `add_item` calls sharing one name, applied left to right;
each element of `calls` is the `(price, quantity)` pair of one call. -/
def addSeq (s : Shopkeeper) (name : String) : List (Int × Int) → Shopkeeper
  | [] => s
  | (p, q) :: rest => addSeq (s.add_item name p q) name rest

/-- A well-formed catalog: distinct keys, and each item's `name` field equals
its key (true of every catalog this program builds). -/
def validCatalog (inv : List (String × Item)) : Prop :=
  (inv.map Prod.fst).Nodup ∧ ∀ p ∈ inv, p.2.name = p.1

/-! ### Association-list lemmas -/

theorem lookupD_mem {l : List (String × Item)} {k : String} {v : Item}
    (h : lookupD l k = some v) : (k, v) ∈ l := by
  induction l with
  | nil => simp [lookupD] at h
  | cons p rest ih =>
    obtain ⟨k2, v2⟩ := p
    simp only [lookupD] at h
    split at h
    · next heq => cases h; simp [heq]
    · exact List.mem_cons_of_mem _ (ih h)

theorem mem_setKey {l : List (String × Item)} {k : String} {v : Item} {p : String × Item}
    (h : p ∈ setKey l k v) : p = (k, v) ∨ p ∈ l := by
  induction l with
  | nil => simp [setKey] at h; simp [h]
  | cons q rest ih =>
    obtain ⟨k2, v2⟩ := q
    simp only [setKey] at h
    split at h
    · rcases List.mem_cons.mp h with h1 | h1
      · exact Or.inl h1
      · exact Or.inr (List.mem_cons_of_mem _ h1)
    · rcases List.mem_cons.mp h with h1 | h1
      · exact Or.inr (by simp [h1])
      · rcases ih h1 with h2 | h2
        · exact Or.inl h2
        · exact Or.inr (List.mem_cons_of_mem _ h2)

theorem lookupD_setKey_self (l : List (String × Item)) (k : String) (v : Item) :
    lookupD (setKey l k v) k = some v := by
  induction l with
  | nil => simp [setKey, lookupD]
  | cons q rest ih =>
    obtain ⟨k2, v2⟩ := q
    simp only [setKey]
    split
    · simp [lookupD]
    · next hne => simp [lookupD, hne, ih]

theorem lookupD_setKey_ne (l : List (String × Item)) (k k2 : String) (v : Item)
    (h : k2 ≠ k) : lookupD (setKey l k v) k2 = lookupD l k2 := by
  induction l with
  | nil => simp [setKey, lookupD, Ne.symm h]
  | cons q rest ih =>
    obtain ⟨k3, v3⟩ := q
    simp only [setKey]
    split
    · next heq =>
      subst heq
      simp [lookupD, Ne.symm h]
    · simp only [lookupD, ih]

theorem mem_eraseKey {l : List (String × Item)} {k : String} {p : String × Item}
    (h : p ∈ eraseKey l k) : p ∈ l := by
  induction l with
  | nil => simp [eraseKey] at h
  | cons q rest ih =>
    obtain ⟨k2, v2⟩ := q
    simp only [eraseKey] at h
    split at h
    · exact List.mem_cons_of_mem _ h
    · rcases List.mem_cons.mp h with h1 | h1
      · simp [h1]
      · exact List.mem_cons_of_mem _ (ih h1)

theorem lookupD_append_of_none {l : List (String × Item)} {k : String}
    (h : lookupD l k = none) (m : List (String × Item)) :
    lookupD (l ++ m) k = lookupD m k := by
  induction l with
  | nil => simp
  | cons q rest ih =>
    obtain ⟨k2, v2⟩ := q
    simp only [lookupD] at h ⊢
    split at h
    · exact absurd h (by simp)
    · next hne => simp only [List.cons_append, lookupD, if_neg hne]; exact ih h

/-! ### C1: `sell_item` -/

/-- C1: starting from a catalog with non-negative quantities, `sell_item`
succeeds exactly when the guard (name present and stock at least the request)
holds; on success it returns `price * quantity`, appends exactly the sale
record `{name, quantity, price * quantity}`, decrements the item's stock by
the request and touches no other entry; when the guard fails the whole state
is unchanged and `0` is returned; in either case every resulting quantity is
non-negative. -/
theorem sell_item_correct (s : Shopkeeper) (name : String) (q : Int)
    (hpos : invNonneg s.inventory) :
    (∀ it, lookupD s.inventory name = some it → q ≤ it.quantity →
      (s.sell_item name q).2 = it.price * q ∧
      (s.sell_item name q).1.sales = s.sales ++ [⟨name, q, it.price * q⟩] ∧
      lookupD (s.sell_item name q).1.inventory name
        = some ⟨it.name, it.price, it.quantity - q⟩ ∧
      (∀ k, k ≠ name →
        lookupD (s.sell_item name q).1.inventory k = lookupD s.inventory k)) ∧
    (s.canSell name q = false →
      (s.sell_item name q).1 = s ∧ (s.sell_item name q).2 = 0) ∧
    invNonneg (s.sell_item name q).1.inventory := by
  cases hl : lookupD s.inventory name with
  | none =>
    refine ⟨?_, ?_, ?_⟩
    · intro it hit
      cases hit
    · intro _
      constructor <;> simp [Shopkeeper.sell_item, hl]
    · intro p hp
      simp only [Shopkeeper.sell_item, hl] at hp
      exact hpos p hp
  | some it0 =>
    by_cases hq : q ≤ it0.quantity
    · refine ⟨?_, ?_, ?_⟩
      · intro it hit hqle
        injection hit with hit
        subst hit
        refine ⟨?_, ?_, ?_, ?_⟩
        · simp [Shopkeeper.sell_item, hl, hq, Shopkeeper.save_inventory,
            Shopkeeper.save_sales]
        · simp [Shopkeeper.sell_item, hl, hq, Shopkeeper.save_inventory,
            Shopkeeper.save_sales]
        · simp [Shopkeeper.sell_item, hl, hq, Shopkeeper.save_inventory,
            Shopkeeper.save_sales, lookupD_setKey_self]
        · intro k hk
          simp [Shopkeeper.sell_item, hl, hq, Shopkeeper.save_inventory,
            Shopkeeper.save_sales, lookupD_setKey_ne _ _ _ _ hk]
      · intro hcs
        simp [Shopkeeper.canSell, hl, hq] at hcs
      · intro p hp
        simp only [Shopkeeper.sell_item, hl, hq, if_pos, Shopkeeper.save_inventory,
          Shopkeeper.save_sales] at hp
        rcases mem_setKey hp with h1 | h1
        · rw [h1]
          simp
          omega
        · exact hpos p h1
    · refine ⟨?_, ?_, ?_⟩
      · intro it hit hqle
        injection hit with hit
        subst hit
        exact absurd hqle hq
      · intro _
        constructor <;> simp [Shopkeeper.sell_item, hl, hq]
      · intro p hp
        simp only [Shopkeeper.sell_item, hl, hq, if_neg] at hp
        exact hpos p hp

/-- Witness for C1: selling 4 units of `w` (price 5, stock 10) returns 20 and
appends the record `{w, 4, 20}`. -/
theorem sell_item_correct_witness :
    invNonneg sampleShop.inventory ∧
    (sampleShop.sell_item "w" 4).2 = 5 * 4 ∧
    (sampleShop.sell_item "w" 4).1.sales = sampleShop.sales ++ [⟨"w", 4, 5 * 4⟩] := by
  have hpos : invNonneg sampleShop.inventory := by
    intro p hp
    simp only [sampleShop, List.mem_singleton] at hp
    rw [hp]
    norm_num
  have h := sell_item_correct sampleShop "w" 4 hpos
  have h1 := h.1 (Item.mk "w" 5 10) (by rfl) (by norm_num)
  exact ⟨hpos, h1.1, h1.2.1⟩

/-! ### C2: non-negativity under the four operations -/

/-- C2 fails as the claim states it: `add_item` performs no sign validation, so
adding quantity `-1` of a new item to the (vacuously non-negative) empty
catalog leaves that item with quantity `-1 < 0`. -/
theorem nonneg_invariant_counterexample :
    invNonneg emptyShop.inventory ∧
    ¬ invNonneg ((emptyShop.add_item "x" 0 (-1)).inventory) := by
  constructor
  · intro p hp
    simp [emptyShop] at hp
  · intro h
    have hmem : ("x", Item.mk "x" 0 (-1)) ∈ ((emptyShop.add_item "x" 0 (-1)).inventory) := by
      simp [emptyShop, Shopkeeper.add_item, lookupD, Shopkeeper.save_inventory]
    have := h _ hmem
    norm_num at this

/-- C2 amended: starting from a catalog with non-negative quantities,
`remove_item` and `sell_item` preserve non-negativity for arbitrary arguments,
and `add_item` / `update_item` preserve it whenever the quantity argument they
are given is non-negative (or, for `update_item`, omitted). -/
theorem ops_preserve_nonneg (s : Shopkeeper) (hpos : invNonneg s.inventory) :
    (∀ (name : String) (price quantity : Int), 0 ≤ quantity →
      invNonneg ((s.add_item name price quantity).inventory)) ∧
    (∀ name : String, invNonneg ((s.remove_item name).1.inventory)) ∧
    (∀ (name : String) (price : Option Int),
      invNonneg ((s.update_item name price none).1.inventory)) ∧
    (∀ (name : String) (price : Option Int) (quantity : Int), 0 ≤ quantity →
      invNonneg ((s.update_item name price (some quantity)).1.inventory)) ∧
    (∀ (name : String) (quantity : Int),
      invNonneg ((s.sell_item name quantity).1.inventory)) := by
  refine ⟨?_, ?_, ?_, ?_, ?_⟩
  · intro name price quantity hq p hp
    cases hl : lookupD s.inventory name with
    | some it0 =>
      simp only [Shopkeeper.add_item, hl, Shopkeeper.save_inventory] at hp
      rcases mem_setKey hp with h1 | h1
      · rw [h1]
        have h2 := hpos _ (lookupD_mem hl)
        simp at h2 ⊢
        omega
      · exact hpos p h1
    | none =>
      simp only [Shopkeeper.add_item, hl, Shopkeeper.save_inventory] at hp
      rcases List.mem_append.mp hp with h1 | h1
      · exact hpos p h1
      · simp only [List.mem_singleton] at h1
        rw [h1]
        exact hq
  · intro name p hp
    cases hl : lookupD s.inventory name with
    | some it0 =>
      simp only [Shopkeeper.remove_item, hl, Shopkeeper.save_inventory] at hp
      exact hpos p (mem_eraseKey hp)
    | none =>
      simp only [Shopkeeper.remove_item, hl] at hp
      exact hpos p hp
  · intro name price p hp
    cases hl : lookupD s.inventory name with
    | some it0 =>
      simp only [Shopkeeper.update_item, hl, Shopkeeper.save_inventory] at hp
      rcases mem_setKey hp with h1 | h1
      · rw [h1]
        have := hpos _ (lookupD_mem hl)
        cases price <;> simpa using this
      · exact hpos p h1
    | none =>
      simp only [Shopkeeper.update_item, hl] at hp
      exact hpos p hp
  · intro name price quantity hq p hp
    cases hl : lookupD s.inventory name with
    | some it0 =>
      simp only [Shopkeeper.update_item, hl, Shopkeeper.save_inventory] at hp
      rcases mem_setKey hp with h1 | h1
      · rw [h1]
        cases price <;> simpa using hq
      · exact hpos p h1
    | none =>
      simp only [Shopkeeper.update_item, hl] at hp
      exact hpos p hp
  · intro name quantity p hp
    cases hl : lookupD s.inventory name with
    | some it0 =>
      by_cases hq : quantity ≤ it0.quantity
      · simp only [Shopkeeper.sell_item, hl, hq, if_pos, Shopkeeper.save_inventory,
          Shopkeeper.save_sales] at hp
        rcases mem_setKey hp with h1 | h1
        · rw [h1]
          simp
          omega
        · exact hpos p h1
      · simp only [Shopkeeper.sell_item, hl, hq, if_neg] at hp
        exact hpos p hp
    | none =>
      simp only [Shopkeeper.sell_item, hl] at hp
      exact hpos p hp

/-- Witness for the amended C2, at a concrete catalog and concrete calls. -/
theorem ops_preserve_nonneg_witness :
    invNonneg sampleShop.inventory ∧
    invNonneg ((sampleShop.add_item "y" 2 3).inventory) ∧
    invNonneg ((sampleShop.sell_item "w" 4).1.inventory) := by
  have hpos : invNonneg sampleShop.inventory := by
    intro p hp
    simp only [sampleShop, List.mem_singleton] at hp
    rw [hp]
    norm_num
  have h := ops_preserve_nonneg sampleShop hpos
  exact ⟨hpos, h.1 "y" 2 3 (by norm_num), h.2.2.2.2 "w" 4⟩

/-! ### C3: accumulation of `add_item` -/

theorem addSeq_lookup (name : String) (calls : List (Int × Int)) :
    ∀ (s : Shopkeeper) (it : Item), lookupD s.inventory name = some it →
      lookupD ((addSeq s name calls).inventory) name
        = some ⟨it.name, it.price, it.quantity + (calls.map Prod.snd).sum⟩ := by
  induction calls with
  | nil =>
    intro s it h
    simpa using h
  | cons c rest ih =>
    obtain ⟨p, q⟩ := c
    intro s it h
    have h2 : lookupD ((s.add_item name p q).inventory) name
        = some ⟨it.name, it.price, it.quantity + q⟩ := by
      simp [Shopkeeper.add_item, h, Shopkeeper.save_inventory, lookupD_setKey_self]
    have h3 := ih (s.add_item name p q) _ h2
    rw [addSeq, h3]
    simp
    ring

/-- C3: applied to a catalog not containing `name`, a non-empty sequence of
`add_item name` calls leaves `name` with the price of the first call and the
sum of all the quantities; and one `add_item` call on an existing name keeps
its stored price (and name), only adding to its quantity. -/
theorem add_item_accumulates :
    (∀ (s : Shopkeeper) (name : String) (p0 q0 : Int) (rest : List (Int × Int)),
      lookupD s.inventory name = none →
      lookupD ((addSeq s name ((p0, q0) :: rest)).inventory) name
        = some ⟨name, p0, q0 + (rest.map Prod.snd).sum⟩) ∧
    (∀ (s : Shopkeeper) (name : String) (p q : Int) (it : Item),
      lookupD s.inventory name = some it →
      lookupD ((s.add_item name p q).inventory) name
        = some ⟨it.name, it.price, it.quantity + q⟩) := by
  constructor
  · intro s name p0 q0 rest h
    have h1 : lookupD ((s.add_item name p0 q0).inventory) name
        = some ⟨name, p0, q0⟩ := by
      simp only [Shopkeeper.add_item, h, Shopkeeper.save_inventory]
      rw [lookupD_append_of_none h]
      simp [lookupD]
    rw [addSeq]
    exact addSeq_lookup name rest _ _ h1
  · intro s name p q it h
    simp [Shopkeeper.add_item, h, Shopkeeper.save_inventory, lookupD_setKey_self]

/-- Witness for C3: adding `x` twice (prices 5 then 7, quantities 2 then 3) to
the empty catalog yields price 5 and quantity 5. -/
theorem add_item_accumulates_witness :
    lookupD emptyShop.inventory "x" = none ∧
    lookupD ((addSeq emptyShop "x" [(5, 2), (7, 3)]).inventory) "x"
      = some ⟨"x", 5, 5⟩ := by
  have h := add_item_accumulates.1 emptyShop "x" 5 2 [(7, 3)] rfl
  refine ⟨rfl, ?_⟩
  rw [h]
  norm_num

/-! ### C4: `update_item` partial update and frame -/

/-- C4: for an existing item, supplying only a price overwrites the price and
keeps the name and quantity; supplying only a quantity overwrites the quantity
and keeps the name and price; every other catalog entry is untouched and the
call reports success (and leaves the sales log alone); on a missing name the
whole state — catalog and stores — is returned unchanged with the not-found
flag. -/
theorem update_item_frame :
    (∀ (s : Shopkeeper) (name : String) (p : Int) (it : Item),
      lookupD s.inventory name = some it →
      (s.update_item name (some p) none).2 = true ∧
      lookupD ((s.update_item name (some p) none).1.inventory) name
        = some ⟨it.name, p, it.quantity⟩ ∧
      (∀ k, k ≠ name → lookupD ((s.update_item name (some p) none).1.inventory) k
        = lookupD s.inventory k) ∧
      (s.update_item name (some p) none).1.sales = s.sales) ∧
    (∀ (s : Shopkeeper) (name : String) (q : Int) (it : Item),
      lookupD s.inventory name = some it →
      (s.update_item name none (some q)).2 = true ∧
      lookupD ((s.update_item name none (some q)).1.inventory) name
        = some ⟨it.name, it.price, q⟩ ∧
      (∀ k, k ≠ name → lookupD ((s.update_item name none (some q)).1.inventory) k
        = lookupD s.inventory k) ∧
      (s.update_item name none (some q)).1.sales = s.sales) ∧
    (∀ (s : Shopkeeper) (name : String) (p q : Option Int),
      lookupD s.inventory name = none →
      s.update_item name p q = (s, false)) := by
  refine ⟨?_, ?_, ?_⟩
  · intro s name p it h
    refine ⟨?_, ?_, ?_, ?_⟩
    · simp [Shopkeeper.update_item, h]
    · simp [Shopkeeper.update_item, h, Shopkeeper.save_inventory, lookupD_setKey_self]
    · intro k hk
      simp [Shopkeeper.update_item, h, Shopkeeper.save_inventory,
        lookupD_setKey_ne _ _ _ _ hk]
    · simp [Shopkeeper.update_item, h, Shopkeeper.save_inventory]
  · intro s name q it h
    refine ⟨?_, ?_, ?_, ?_⟩
    · simp [Shopkeeper.update_item, h]
    · simp [Shopkeeper.update_item, h, Shopkeeper.save_inventory, lookupD_setKey_self]
    · intro k hk
      simp [Shopkeeper.update_item, h, Shopkeeper.save_inventory,
        lookupD_setKey_ne _ _ _ _ hk]
    · simp [Shopkeeper.update_item, h, Shopkeeper.save_inventory]
  · intro s name p q h
    simp [Shopkeeper.update_item, h]

/-- Witness for C4: updating only the price of `w` (price 5, stock 10) to 9
reports success, yields `{w, 9, 10}`, and leaves other keys alone. -/
theorem update_item_frame_witness :
    (sampleShop.update_item "w" (some 9) none).2 = true ∧
    lookupD ((sampleShop.update_item "w" (some 9) none).1.inventory) "w"
      = some ⟨"w", 9, 10⟩ ∧
    lookupD ((sampleShop.update_item "w" (some 9) none).1.inventory) "z"
      = lookupD sampleShop.inventory "z" := by
  have h := update_item_frame.1 sampleShop "w" 9 (Item.mk "w" 5 10) rfl
  exact ⟨h.1, h.2.1, h.2.2.1 "z" (by decide)⟩

/-! ### C5: save/load round-trip for the catalog -/

theorem decodeItem_serializeItem (it : Item) :
    decodeItem (serializeItem it) = some it := by
  simp [decodeItem, serializeItem, jlookup]

theorem decodeInvList_serialize (inv : List (String × Item)) :
    decodeInvList (inv.map (fun p => (p.1, serializeItem p.2))) = some inv := by
  induction inv with
  | nil => rfl
  | cons p rest ih =>
    simp [decodeInvList, decodeItem_serializeItem, ih]

/-- C5: for any valid non-empty catalog, writing it with `save_inventory` and
then running `load_inventory` on the written file yields exactly the same
catalog (and leaves the file as written). -/
theorem save_load_roundtrip (s : Shopkeeper) (hv : validCatalog s.inventory)
    (hne : s.inventory ≠ []) :
    load_inventory s.save_inventory.inventory_store
      = some (s.inventory, s.save_inventory.inventory_store) := by
  simp [Shopkeeper.save_inventory, load_inventory, serializeInv, decodeInvList_serialize]

/-- Witness for C5 at the one-item catalog of `sampleShop`. -/
theorem save_load_roundtrip_witness :
    validCatalog sampleShop.inventory ∧ sampleShop.inventory ≠ [] ∧
    load_inventory sampleShop.save_inventory.inventory_store
      = some (sampleShop.inventory, sampleShop.save_inventory.inventory_store) := by
  have hv : validCatalog sampleShop.inventory := by
    constructor
    · simp [sampleShop]
    · intro p hp
      simp only [sampleShop, List.mem_singleton] at hp
      rw [hp]
  have hne : sampleShop.inventory ≠ [] := by simp [sampleShop]
  exact ⟨hv, hne, save_load_roundtrip sampleShop hv hne⟩

/-! ### C6: defensive loading -/

/-- C6 fails as the claim states it: the inventory file containing the JSON
text `[]` is parseable, but `json.load` then returns a list, `data.items()`
raises `AttributeError`, and the `except json.JSONDecodeError` clause does not
catch it — the error propagates out of `load_inventory` (modelled as `none`). -/
theorem load_inventory_raises_counterexample :
    load_inventory (.val (.arr [])) = none := rfl

/-- C6 amended: `load_inventory` creates and returns the empty catalog when the
file is absent, returns the empty catalog without rewriting the file when the
content is not valid JSON, and returns the decoded catalog when the content is
a JSON object whose entries decode; but JSON content that is not an object
escapes the defensive handling (see the counterexample).  `load_sales` never
raises: absent creates `[]` and returns the empty log, invalid JSON returns the
empty log without rewriting, and any parseable value is kept as loaded. -/
theorem load_defensive :
    load_inventory .absent = some ([], .val (.obj [])) ∧
    load_inventory .invalid = some ([], .invalid) ∧
    (∀ fields inv, decodeInvList fields = some inv →
      load_inventory (.val (.obj fields)) = some (inv, .val (.obj fields))) ∧
    load_sales_raw .absent = (.arr [], .val (.arr [])) ∧
    load_sales_raw .invalid = (.arr [], .invalid) ∧
    (∀ j, load_sales_raw (.val j) = (j, .val j)) := by
  refine ⟨rfl, rfl, ?_, rfl, rfl, fun j => rfl⟩
  intro fields inv h
  simp [load_inventory, h]

/-- Witness for C6 (amended): loading the serialized one-item catalog of
`sampleShop` decodes it back. -/
theorem load_defensive_witness :
    decodeInvList [("w", serializeItem ⟨"w", 5, 10⟩)] = some [("w", ⟨"w", 5, 10⟩)] ∧
    load_inventory (.val (.obj [("w", serializeItem ⟨"w", 5, 10⟩)]))
      = some ([("w", ⟨"w", 5, 10⟩)], .val (.obj [("w", serializeItem ⟨"w", 5, 10⟩)])) := by
  have hdec : decodeInvList [("w", serializeItem ⟨"w", 5, 10⟩)]
      = some [("w", ⟨"w", 5, 10⟩)] := by
    simp [decodeInvList, decodeItem_serializeItem]
  exact ⟨hdec, load_defensive.2.2.1 _ _ hdec⟩

/-! ### C7: report total versus the sales listing -/

/-- C7: in every reachable state, the total printed by `generate_report`
equals the sum of the `total_price` column of the rows `show_sales` prints. -/
theorem report_total_eq_sales_sum (s : Shopkeeper) (h : Reachable s) :
    s.generate_report = ((s.show_sales).map (fun r => r.2.2)).sum := by
  simp only [Shopkeeper.generate_report, Shopkeeper.show_sales, List.map_map]
  rfl

/-- Witness for C7: the state reached by loading empty files, adding `w` and
selling 4 units of it. -/
theorem report_total_eq_sales_sum_witness :
    (((emptyShop.add_item "w" 5 10).sell_item "w" 4).1).generate_report
      = (((((emptyShop.add_item "w" 5 10).sell_item "w" 4).1).show_sales).map
          (fun r => r.2.2)).sum := by
  have hr : Reachable emptyShop :=
    Reachable.init .absent .absent [] (.val (.obj [])) (.arr []) (.val (.arr [])) []
      rfl rfl rfl
  have hr2 : Reachable (emptyShop.add_item "w" 5 10) :=
    Reachable.step _ _ hr (Step.add _ _ _ _)
  have hr3 : Reachable ((emptyShop.add_item "w" 5 10).sell_item "w" 4).1 :=
    Reachable.step _ _ hr2 (Step.sell _ _ _)
  exact report_total_eq_sales_sum _ hr3

/-! ### C8: sale-record well-formedness and append-only log -/

/-- C8 fails as the claim states it: from the reachable state holding item `w`
(price 5, stock 10), `sell_item("w", 0)` passes the guard (`10 >= 0`) and
appends the record `{w, 0, 0}`, whose quantity is not a positive integer. -/
theorem sale_record_counterexample :
    Reachable ((emptyShop.add_item "w" 5 10).sell_item "w" 0).1 ∧
    ((emptyShop.add_item "w" 5 10).sell_item "w" 0).1.sales = [⟨"w", 0, 0⟩] ∧
    ¬ (∀ r ∈ ((emptyShop.add_item "w" 5 10).sell_item "w" 0).1.sales,
        0 < r.quantity) := by
  have hr : Reachable emptyShop :=
    Reachable.init .absent .absent [] (.val (.obj [])) (.arr []) (.val (.arr [])) []
      rfl rfl rfl
  have hr2 : Reachable (emptyShop.add_item "w" 5 10) :=
    Reachable.step _ _ hr (Step.add _ _ _ _)
  have hr3 : Reachable ((emptyShop.add_item "w" 5 10).sell_item "w" 0).1 :=
    Reachable.step _ _ hr2 (Step.sell _ _ _)
  have hs : ((emptyShop.add_item "w" 5 10).sell_item "w" 0).1.sales
      = [⟨"w", 0, 0⟩] := by
    simp [emptyShop, Shopkeeper.add_item, Shopkeeper.sell_item, lookupD,
      Shopkeeper.save_inventory, Shopkeeper.save_sales]
  refine ⟨hr3, hs, ?_⟩
  intro h
  have := h ⟨"w", 0, 0⟩ (by rw [hs]; exact List.mem_singleton.mpr rfl)
  norm_num at this

/-- C8 amended: no operation ever edits or removes an existing sale record —
`add_item`, `remove_item` and `update_item` leave the log unchanged, and
`sell_item` either leaves it unchanged or appends exactly one record at the
end; the appended record is `{name, quantity, price * quantity}` with the
price the item had at the time of the sale, and when the requested quantity is
positive and the item's price non-negative it has a positive quantity and a
non-negative total. -/
theorem sales_log_append_only :
    (∀ (s : Shopkeeper) (name : String) (p q : Int),
      (s.add_item name p q).sales = s.sales) ∧
    (∀ (s : Shopkeeper) (name : String), (s.remove_item name).1.sales = s.sales) ∧
    (∀ (s : Shopkeeper) (name : String) (p q : Option Int),
      (s.update_item name p q).1.sales = s.sales) ∧
    (∀ (s : Shopkeeper) (name : String) (q : Int),
      (s.sell_item name q).1.sales = s.sales ∨
      ∃ r, (s.sell_item name q).1.sales = s.sales ++ [r]) ∧
    (∀ (s : Shopkeeper) (name : String) (q : Int) (it : Item),
      lookupD s.inventory name = some it → q ≤ it.quantity → 0 < q →
      0 ≤ it.price →
      (s.sell_item name q).1.sales = s.sales ++ [⟨name, q, it.price * q⟩] ∧
      0 < q ∧ 0 ≤ it.price * q) := by
  refine ⟨?_, ?_, ?_, ?_, ?_⟩
  · intro s name p q
    cases hl : lookupD s.inventory name <;>
      simp [Shopkeeper.add_item, hl, Shopkeeper.save_inventory]
  · intro s name
    cases hl : lookupD s.inventory name <;>
      simp [Shopkeeper.remove_item, hl, Shopkeeper.save_inventory]
  · intro s name p q
    cases hl : lookupD s.inventory name <;>
      simp [Shopkeeper.update_item, hl, Shopkeeper.save_inventory]
  · intro s name q
    cases hl : lookupD s.inventory name with
    | none => exact Or.inl (by simp [Shopkeeper.sell_item, hl])
    | some it0 =>
      by_cases hq : q ≤ it0.quantity
      · exact Or.inr ⟨⟨name, q, it0.price * q⟩,
          by simp [Shopkeeper.sell_item, hl, hq, Shopkeeper.save_inventory,
            Shopkeeper.save_sales]⟩
      · exact Or.inl (by simp [Shopkeeper.sell_item, hl, hq])
  · intro s name q it h hq hqpos hp
    refine ⟨?_, hqpos, mul_nonneg hp (le_of_lt hqpos)⟩
    simp [Shopkeeper.sell_item, h, hq, Shopkeeper.save_inventory,
      Shopkeeper.save_sales]

/-- Witness for the amended C8: the sale of 4 units of `w` at price 5 appends
`{w, 4, 20}`, a record with positive quantity and non-negative total. -/
theorem sales_log_append_only_witness :
    (sampleShop.sell_item "w" 4).1.sales = sampleShop.sales ++ [⟨"w", 4, 5 * 4⟩] ∧
    0 < (4 : Int) ∧ 0 ≤ (5 : Int) * 4 :=
  sales_log_append_only.2.2.2.2 sampleShop "w" 4 (Item.mk "w" 5 10) rfl
    (by norm_num) (by norm_num) (by norm_num)

/-! ### C9: write-through persistence -/

/-- C9: after `add_item` (which always succeeds) and after the success paths of
`remove_item`, `update_item` and `sell_item`, the inventory file holds exactly
the serialization of the in-memory catalog — and after a successful
`sell_item` the sales file holds the serialization of the in-memory log —
while the failure paths of `remove_item`, `update_item` and `sell_item` return
the whole state, files included, untouched.  Operations other than a
successful `sell_item` never touch the sales file. -/
theorem write_through_persistence :
    (∀ (s : Shopkeeper) (name : String) (p q : Int),
      (s.add_item name p q).inventory_store
        = .val (serializeInv (s.add_item name p q).inventory) ∧
      (s.add_item name p q).sales_store = s.sales_store) ∧
    (∀ (s : Shopkeeper) (name : String),
      ((s.remove_item name).2 = true →
        (s.remove_item name).1.inventory_store
          = .val (serializeInv (s.remove_item name).1.inventory) ∧
        (s.remove_item name).1.sales_store = s.sales_store) ∧
      ((s.remove_item name).2 = false → (s.remove_item name).1 = s)) ∧
    (∀ (s : Shopkeeper) (name : String) (p q : Option Int),
      ((s.update_item name p q).2 = true →
        (s.update_item name p q).1.inventory_store
          = .val (serializeInv (s.update_item name p q).1.inventory) ∧
        (s.update_item name p q).1.sales_store = s.sales_store) ∧
      ((s.update_item name p q).2 = false → (s.update_item name p q).1 = s)) ∧
    (∀ (s : Shopkeeper) (name : String) (q : Int),
      (s.canSell name q = true →
        (s.sell_item name q).1.inventory_store
          = .val (serializeInv (s.sell_item name q).1.inventory) ∧
        (s.sell_item name q).1.sales_store
          = .val (serializeSales (s.sell_item name q).1.sales)) ∧
      (s.canSell name q = false → (s.sell_item name q).1 = s)) := by
  refine ⟨?_, ?_, ?_, ?_⟩
  · intro s name p q
    cases hl : lookupD s.inventory name <;>
      simp [Shopkeeper.add_item, hl, Shopkeeper.save_inventory]
  · intro s name
    cases hl : lookupD s.inventory name with
    | none => simp [Shopkeeper.remove_item, hl]
    | some it0 =>
      simp [Shopkeeper.remove_item, hl, Shopkeeper.save_inventory]
  · intro s name p q
    cases hl : lookupD s.inventory name with
    | none => simp [Shopkeeper.update_item, hl]
    | some it0 =>
      simp [Shopkeeper.update_item, hl, Shopkeeper.save_inventory]
  · intro s name q
    cases hl : lookupD s.inventory name with
    | none => simp [Shopkeeper.sell_item, Shopkeeper.canSell, hl]
    | some it0 =>
      by_cases hq : q ≤ it0.quantity
      · constructor
        · intro _
          simp [Shopkeeper.sell_item, hl, hq, Shopkeeper.save_inventory,
            Shopkeeper.save_sales]
        · intro hc
          simp [Shopkeeper.canSell, hl, hq] at hc
      · constructor
        · intro hc
          simp [Shopkeeper.canSell, hl, hq] at hc
        · intro _
          simp [Shopkeeper.sell_item, hl, hq]

/-- Witness for C9: a successful sale from `sampleShop` leaves both files equal
to the serialization of the in-memory state. -/
theorem write_through_persistence_witness :
    sampleShop.canSell "w" 4 = true ∧
    (sampleShop.sell_item "w" 4).1.inventory_store
      = .val (serializeInv (sampleShop.sell_item "w" 4).1.inventory) ∧
    (sampleShop.sell_item "w" 4).1.sales_store
      = .val (serializeSales (sampleShop.sell_item "w" 4).1.sales) := by
  have hc : sampleShop.canSell "w" 4 = true := rfl
  have h := (write_through_persistence.2.2.2 sampleShop "w" 4).1 hc
  exact ⟨hc, h.1, h.2⟩

/-! ### C10: a zero return does not mean failure -/

/-- C10: with item `x` at price 0 and stock 5, `sell_item("x", 2)` is a genuine
sale — the stock drops to 3 and the record `{x, 2, 0}` is appended — yet it
returns 0, exactly the value returned when the item is missing or the stock is
insufficient, so the return value alone cannot distinguish the cases. -/
theorem sell_zero_return_ambiguous :
    (freeShop.sell_item "x" 2).2 = 0 ∧
    (freeShop.sell_item "x" 2).1.sales = freeShop.sales ++ [⟨"x", 2, 0⟩] ∧
    lookupD ((freeShop.sell_item "x" 2).1.inventory) "x" = some ⟨"x", 0, 3⟩ ∧
    (freeShop.sell_item "missing" 2).2 = 0 ∧
    (freeShop.sell_item "missing" 2).1 = freeShop ∧
    (freeShop.sell_item "x" 99).2 = 0 ∧
    (freeShop.sell_item "x" 99).1 = freeShop := by
  refine ⟨rfl, ?_, ?_, rfl, rfl, rfl, rfl⟩
  · simp [freeShop, Shopkeeper.sell_item, lookupD, Shopkeeper.save_inventory,
      Shopkeeper.save_sales]
  · simp [freeShop, Shopkeeper.sell_item, lookupD, setKey,
      Shopkeeper.save_inventory, Shopkeeper.save_sales]
